import Mathlib

/-!
Shallow embedding of the proxy-scraper pipeline
(`Spyder_parse/spiders/proxy_spider.py`): record extraction, protocol
classification, batching, upload coordination, acknowledgement parsing,
and the completion tracker, together with theorems settling the spec's
claims about them.
-/

set_option autoImplicit false

namespace SpyderParse

/-- The protocol tags that can appear in a record's protocol list. -/
inductive ProtocolTag where
  | HTTP
  | HTTPS
  | SOCKS4
  | SOCKS5
deriving DecidableEq, Repr

/-- Python's `str.upper()` (ASCII case folding), character by character. -/
def pyUpper (s : String) : String :=
  ⟨s.data.map Char.toUpper⟩

/-- Python's substring test `needle in hay` on character lists. -/
def containsSub (needle : List Char) : List Char → Bool
  | [] => needle.isEmpty
  | l@(_ :: rest) => needle.isPrefixOf l || containsSub needle rest

/-- Python's substring test `pat in hay` on strings. -/
def containsStr (hay pat : String) : Bool :=
  containsSub pat.data hay.data

/-- `ProxySpider._extract_protocols`: derives the protocol list from the
protocol cell's markup (`protocol_cell.get().upper()`), or `["HTTP"]`
when the cell is absent (`None`).  The argument is the string the
selector's `.get()` returns. -/
def _extract_protocols (protocol_cell : Option String) : List ProtocolTag :=
  match protocol_cell with
  | none => [.HTTP]
  | some raw =>
    let cell_text := pyUpper raw
    let protocols : List ProtocolTag := []
    let protocols :=
      if containsStr cell_text "HTTPS" then protocols ++ [.HTTP, .HTTPS]
      else if containsStr cell_text "HTTP" then protocols ++ [.HTTP]
      else protocols
    let protocols :=
      if containsStr cell_text "SOCKS5" then protocols ++ [.SOCKS5]
      else if containsStr cell_text "SOCKS4" then protocols ++ [.SOCKS4]
      else if containsStr cell_text "SOCKS" then protocols ++ [.SOCKS4, .SOCKS5]
      else protocols
    if protocols = [] then [.HTTP] else protocols

/-- The HTTP-family rule group as the spec states it (§4.2 rule 1). -/
def httpFamilyOf (cell_text : String) : List ProtocolTag :=
  if containsStr cell_text "HTTPS" then [.HTTP, .HTTPS]
  else if containsStr cell_text "HTTP" then [.HTTP]
  else []

/-- The SOCKS-family rule group as the spec states it (§4.2 rule 2). -/
def socksFamilyOf (cell_text : String) : List ProtocolTag :=
  if containsStr cell_text "SOCKS5" then [.SOCKS5]
  else if containsStr cell_text "SOCKS4" then [.SOCKS4]
  else if containsStr cell_text "SOCKS" then [.SOCKS4, .SOCKS5]
  else []

/-- The classifier policy as the spec states it (§4.2): evaluate the two
rule groups independently on the case-folded text, union (concatenate)
their results, and default to `{HTTP}` when the union is empty. -/
def classifierPolicySpec (cell : String) : List ProtocolTag :=
  let t := pyUpper cell
  let u := httpFamilyOf t ++ socksFamilyOf t
  if u = [] then [.HTTP] else u

example : _extract_protocols (some "<td>HTTPS, socks</td>") =
    [.HTTP, .HTTPS, .SOCKS4, .SOCKS5] := by decide

example : _extract_protocols (some "<td>nothing here</td>") = [.HTTP] := by decide

example : _extract_protocols none = [.HTTP] := by decide

/-- One step of the chunking loop in `ProxySpider._submit_form`
(`proxy_strings[i : i + chunk_size] for i in range(0, len(proxy_strings), chunk_size)`):
each produced chunk is `l.take c` and the loop continues on `l.drop c`.
The fuel argument only bounds the recursion depth: every step consumes at
least one element, so fuel `l.length` (supplied by `chunksOf`) is always
enough. -/
def chunksOfFuel {α : Type} (c : Nat) : Nat → List α → List (List α)
  | _, [] => []
  | 0, _ :: _ => []
  | fuel + 1, x :: xs => (x :: xs.take (c - 1)) :: chunksOfFuel c fuel (xs.drop (c - 1))

/-- The Batcher: splits a sequence into consecutive chunks of size `c`
(the code uses `chunk_size = 50`). -/
def chunksOf {α : Type} (c : Nat) (l : List α) : List (List α) :=
  chunksOfFuel c l.length l

example : chunksOf 2 [1, 2, 3, 4, 5] = [[1, 2], [3, 4], [5]] := by decide

example : chunksOf 50 ([] : List Nat) = [] := by decide

/-- Python `dict` assignment `m[k] = v` on an insertion-ordered
association list: an existing key keeps its position and gets the new
value, a fresh key is appended at the end. -/
def dictInsert (m : List (String × List String)) (k : String) (v : List String) :
    List (String × List String) :=
  match m with
  | [] => [(k, v)]
  | (k', v') :: rest => if k' = k then (k', v) :: rest else (k', v') :: dictInsert rest k v

/-- Python `dict` lookup `m[k]` (as an `Option`). -/
def dictFind (m : List (String × List String)) (k : String) : Option (List String) :=
  match m with
  | [] => none
  | (k', v') :: rest => if k' = k then some v' else dictFind rest k

/-- `expected_chunks = (len(self.proxies) + 49) // 50` in
`ProxySpider._parse_upload_response` — the expected number of batch
acknowledgements for `n` records (ceiling division by 50). -/
def expected_chunks (n : Nat) : Nat :=
  (n + 49) / 50

/-- The Completion Tracker's state: `self.results` (the ResultMap),
how many times `_finalize_spider` has run, and the contents last written
to `results.json` by `_finalize_spider` (if any). -/
structure TrackerState where
  results : List (String × List String)
  finalizeCount : Nat
  written : Option (List (String × List String))
deriving DecidableEq

/-- Processing one upload response in `ProxySpider._parse_upload_response`
for a run with `n` extracted records: insert `(save_id, chunk_proxies)`
into `self.results`, then call `_finalize_spider()` whenever
`len(self.results) >= expected_chunks` — there is no guard remembering
that finalization already happened. -/
def trackerStep (n : Nat) (st : TrackerState) (obs : String × List String) : TrackerState :=
  let results := dictInsert st.results obs.1 obs.2
  if expected_chunks n ≤ results.length then
    { results := results, finalizeCount := st.finalizeCount + 1, written := some results }
  else
    { results := results, finalizeCount := st.finalizeCount, written := st.written }

/-- The Completion Tracker over a whole run: fold the arriving
`(save_id, chunk_proxies)` observations (in arbitrary arrival order) over
the initially empty state. -/
def runTracker (n : Nat) (obs : List (String × List String)) : TrackerState :=
  obs.foldl (trackerStep n) ⟨[], 0, none⟩

example :
    (runTracker 60 [("id1", ["a:1"]), ("id2", ["b:2"])]).finalizeCount = 1 := by decide

/-- Python's whitespace class (ASCII part), as used by `str.strip()`. -/
def isPySpace (c : Char) : Bool :=
  c == ' ' || c == '\t' || c == '\n' || c == '\r' || c == '\x0b' || c == '\x0c'

/-- Python `str.strip()` (ASCII whitespace model). -/
def pyStrip (s : String) : String :=
  ⟨((s.data.dropWhile isPySpace).reverse.dropWhile isPySpace).reverse⟩

/-- After a leading digit, Python `int()` accepts further decimal digits
with single grouping underscores (an underscore must sit between two
digits). -/
def underscoreDigitsOk : List Char → Bool
  | [] => true
  | ['_'] => false
  | '_' :: d :: rest => d.isDigit && underscoreDigitsOk rest
  | c :: rest => c.isDigit && underscoreDigitsOk rest

/-- A non-empty ASCII decimal digit sequence, possibly with grouping
underscores, as Python `int()` accepts after the optional sign. -/
def validDigits (l : List Char) : Bool :=
  match l with
  | [] => false
  | c :: rest => c.isDigit && underscoreDigitsOk rest

/-- Base-10 value of a digit sequence, ignoring grouping underscores. -/
def digitsToNat (l : List Char) : Nat :=
  (l.filter fun c => c != '_').foldl (fun a c => a * 10 + (c.toNat - '0'.toNat)) 0

/-- Python `int(s)` on an already-stripped base-10 string (ASCII model):
optional sign followed by digits (with optional grouping underscores);
a `ValueError` becomes `none`.  This is the parse in
`ProxySpider._parse_proxy_row` (`int(port_text.strip())`). -/
def pyInt (s : String) : Option Int :=
  match s.data with
  | '+' :: rest => if validDigits rest then some (Int.ofNat (digitsToNat rest)) else none
  | '-' :: rest => if validDigits rest then some (-(Int.ofNat (digitsToNat rest))) else none
  | l => if validDigits l then some (Int.ofNat (digitsToNat l)) else none

example : pyInt "70000" = some 70000 := by decide

example : pyInt "-5" = some (-5) := by decide

example : pyInt "12a" = none := by decide

example : pyInt "" = none := by decide

/-- One `<td>` cell of a row: `text?` is what `cell.css("::text").get()`
returns (the first text node, or `None`), `raw` is what `cell.get()`
returns (the cell's markup). -/
structure Cell where
  text? : Option String
  raw : String
deriving DecidableEq

/-- A validated proxy record, as built by `_parse_proxy_row`
(`{"ip": ..., "port": ..., "protocols": ...}`).  Python ints are
unbounded, so the port is an `Int`. -/
structure ProxyRecord where
  ip : String
  port : Int
  protocols : List ProtocolTag
deriving DecidableEq

/-- `ProxySpider._parse_proxy_row`: requires at least 2 cells; cell 0's
text must be present and non-empty (`if not ip`), and is stripped; cell
1's text must be present, non-empty, and parse as an integer once
stripped; cell 2, when present, feeds the protocol classifier via its
markup.  Note the code never range-checks the parsed port. -/
def _parse_proxy_row (cells : List Cell) : Option ProxyRecord :=
  match cells with
  | c0 :: c1 :: rest =>
    match c0.text? with
    | none => none
    | some ip0 =>
      if ip0 = "" then none
      else
        match c1.text? with
        | none => none
        | some port_text =>
          if port_text = "" then none
          else
            match pyInt (pyStrip port_text) with
            | none => none
            | some port =>
              some { ip := pyStrip ip0, port := port,
                     protocols := _extract_protocols (rest.head?.map Cell.raw) }
  | _ => none

/-- The extraction loop of `ProxySpider.parse_proxies`
(`for i, row in enumerate(rows[:150]): ... if proxy: self.proxies.append(proxy)`):
at most the first 150 rows are considered, and the successfully parsed
rows' records are accumulated in order. -/
def parse_proxies (rows : List (List Cell)) : List ProxyRecord :=
  (rows.take 150).filterMap _parse_proxy_row

/-- The `f"{proxy['ip']}:{proxy['port']}"` strings of
`ProxySpider._submit_form`. -/
def proxy_strings (proxies : List ProxyRecord) : List String :=
  proxies.map fun p => p.ip ++ ":" ++ toString p.port

/-- One form POST issued by `ProxySpider._submit_form` for one chunk:
its `chunk_index`, the newline-joined `proxies` form field, and the
`chunk_proxies` meta value. -/
structure FormSubmission where
  chunk_index : Nat
  proxies_field : String
  chunk_proxies : List String
deriving DecidableEq

/-- `ProxySpider._submit_form`: chunk the proxy strings by 50 and emit one
form submission per chunk, in chunk order. -/
def _submit_form (proxies : List ProxyRecord) : List FormSubmission :=
  (chunksOf 50 (proxy_strings proxies)).enum.map fun ic =>
    { chunk_index := ic.1, proxies_field := String.intercalate "\n" ic.2,
      chunk_proxies := ic.2 }

/-- What the Upload Coordinator does for a given record list. -/
structure UploadOutcome where
  nothingToUpload : Bool
  uploadPageRequests : Nat
  batchSubmissions : List FormSubmission
deriving DecidableEq

/-- `ProxySpider._upload_proxies`: with no extracted records it logs the
explicit "No proxies to upload" error and returns without yielding any
request (the run ends there — the spec's ABORTED state); otherwise it
yields one GET of the upload page, whose callback `_submit_form` then
issues the batch submissions. -/
def _upload_proxies (proxies : List ProxyRecord) : UploadOutcome :=
  if proxies = [] then
    { nothingToUpload := true, uploadPageRequests := 0, batchSubmissions := [] }
  else
    { nothingToUpload := false, uploadPageRequests := 1,
      batchSubmissions := _submit_form proxies }

/-- The double-quote character (ASCII 34). -/
def dq : Char := Char.ofNat 34

/-- The single-quote character (ASCII 39). -/
def sq : Char := Char.ofNat 39

/-- A regex `(...+)` capture group: succeeds only when the greedy run it
captured is non-empty. -/
def capGuard (cap : List Char) : Option (List Char) :=
  if cap = [] then none else some cap

/-- Case-insensitive match of a literal pattern (given lower-case) at the
start of the text, returning the remainder — the regex literals all
benefit from `re.IGNORECASE`. -/
def stripPrefixCI : List Char → List Char → Option (List Char)
  | [], l => some l
  | _ :: _, [] => none
  | p :: ps, c :: cs => if c.toLower == p then stripPrefixCI ps cs else none

/-- The optional quote `["\']?`: consume one leading quote if present. -/
def skipOptQuote (l : List Char) : List Char :=
  match l with
  | [] => []
  | c :: rest => if c == dq || c == sq then rest else l

/-- Whether the text starts with the given character. -/
def headIs (c : Char) (l : List Char) : Bool :=
  match l with
  | [] => false
  | x :: _ => x == c

/-- `_extract_save_id` pattern 1 at one position:
`save_id["\']?\s*:\s*["\']?([^"\'>\s]+)`. -/
def p1At (l : List Char) : Option (List Char) :=
  match stripPrefixCI "save_id".data l with
  | none => none
  | some r1 =>
    let r3 := (skipOptQuote r1).dropWhile isPySpace
    if headIs ':' r3 then
      capGuard ((skipOptQuote (r3.tail.dropWhile isPySpace)).takeWhile
        fun c => !(c == dq || c == sq || c == '>' || isPySpace c))
    else none

/-- `_extract_save_id` pattern 2 at one position: `save_id=([^&\s]+)`. -/
def p2At (l : List Char) : Option (List Char) :=
  match stripPrefixCI "save_id=".data l with
  | none => none
  | some r => capGuard (r.takeWhile fun c => !(c == '&' || isPySpace c))

/-- The tail of pattern 3: a non-empty run `([^"]+)` that must be
terminated by a closing double quote (otherwise the whole pattern fails,
with no other candidate split, since every character the group could give
back is itself not a quote). -/
def capIfClosed (r5 : List Char) : Option (List Char) :=
  if (r5.drop (r5.takeWhile fun c => !(c == dq)).length).isEmpty then none
  else capGuard (r5.takeWhile fun c => !(c == dq))

/-- `_extract_save_id` pattern 3 at one position:
`"save_id":\s*"([^"]+)"`. -/
def p3At (l : List Char) : Option (List Char) :=
  if headIs dq l then
    match stripPrefixCI "save_id".data l.tail with
    | none => none
    | some r2 =>
      if headIs dq r2 && headIs ':' r2.tail then
        if headIs dq ((r2.tail.tail).dropWhile isPySpace) then
          capIfClosed ((r2.tail.tail).dropWhile isPySpace).tail
        else none
      else none
  else none

/-- `_extract_save_id` pattern 4 at one position:
`Success[^a-zA-Z0-9]*([a-zA-Z0-9\-]+)`.  The greedy star swallows every
non-alphanumeric character; if an alphanumeric follows, the group captures
its maximal alphanumeric-or-hyphen run.  If the text ends inside the
starred run, the star backtracks to the run's last hyphen, if any, and
the group captures exactly that hyphen. -/
def p4At (l : List Char) : Option (List Char) :=
  match stripPrefixCI "success".data l with
  | none => none
  | some r =>
    let rest := r.dropWhile fun c => !c.isAlphanum
    if rest.isEmpty then
      if (r.takeWhile fun c => !c.isAlphanum).contains '-' then some ['-'] else none
    else
      capGuard (rest.takeWhile fun c => c.isAlphanum || c == '-')

/-- `re.search`: try the pattern matcher at each successive start
position, leftmost match wins. -/
def searchOpt (m : List Char → Option (List Char)) : List Char → Option (List Char)
  | [] => none
  | x :: rest =>
    match m (x :: rest) with
    | some cap => some cap
    | none => searchOpt m rest

/-- `ProxySpider._extract_save_id`: try the four patterns in order on the
response text; on a match return the captured group, otherwise synthesize
`upload_<int(time.time())>_<chunk_index>` (the current Unix time is passed
in as `now`). -/
def _extract_save_id (response_text : String) (now : Nat) (chunk_index : Nat) : String :=
  match searchOpt p1At response_text.data with
  | some cap => String.mk cap
  | none =>
    match searchOpt p2At response_text.data with
    | some cap => String.mk cap
    | none =>
      match searchOpt p3At response_text.data with
      | some cap => String.mk cap
      | none =>
        match searchOpt p4At response_text.data with
        | some cap => String.mk cap
        | none => "upload_" ++ toString now ++ "_" ++ toString chunk_index

example : _extract_save_id "save_id: abc123" 0 0 = "abc123" := by decide

example : _extract_save_id "x save_id=xyz&next" 0 0 = "xyz" := by decide

example : _extract_save_id "<p>Success: abc-123</p>" 0 0 = "abc-123" := by decide

example : _extract_save_id "no patterns here" 7 3 = "upload_7_3" := by decide

example : _extract_save_id "" 12 0 = "upload_12_0" := by decide

example : _extract_save_id "Success--a-" 0 0 = "a-" := by decide

example : _extract_save_id "Success---" 0 0 = "-" := by decide

example : _extract_save_id "success_id=3" 0 0 = "id" := by decide

example : _extract_save_id "save_id:>v" 4 9 = "upload_4_9" := by decide

/-- Concrete row whose port text parses to 70000 (outside [1, 65535]). -/
def rowPort70000 : List Cell :=
  [{ text? := some "1.2.3.4", raw := "<td>1.2.3.4</td>" },
   { text? := some "70000", raw := "<td>70000</td>" }]

/-! ## Helper lemmas -/

theorem chunksOfFuel_join {α : Type} (c : Nat) :
    ∀ (n : Nat) (l : List α), l.length ≤ n → (chunksOfFuel c n l).flatten = l := by
  intro n
  induction n with
  | zero =>
    intro l h
    cases l with
    | nil => rfl
    | cons x xs => simp at h
  | succ n ih =>
    intro l h
    cases l with
    | nil => rfl
    | cons x xs =>
      have h1 : (xs.drop (c - 1)).length ≤ n := by
        simp only [List.length_cons] at h
        simp only [List.length_drop]
        omega
      simp only [chunksOfFuel, List.flatten_cons, ih _ h1, List.cons_append,
        List.take_append_drop]

theorem chunksOfFuel_sizes {α : Type} (c : Nat) (hc : 1 ≤ c) :
    ∀ (n : Nat) (l : List α) (b : List α), b ∈ chunksOfFuel c n l → b.length ≤ c := by
  intro n
  induction n with
  | zero =>
    intro l b hb
    cases l with
    | nil => simp [chunksOfFuel] at hb
    | cons x xs => simp [chunksOfFuel] at hb
  | succ n ih =>
    intro l b hb
    cases l with
    | nil => simp [chunksOfFuel] at hb
    | cons x xs =>
      simp only [chunksOfFuel, List.mem_cons] at hb
      rcases hb with hb | hb
      · subst hb
        simp only [List.length_cons, List.length_take]
        omega
      · exact ih _ _ hb

theorem dictInsert_fresh (m : List (String × List String)) (k : String) (v : List String)
    (h : k ∉ m.map Prod.fst) : dictInsert m k v = m ++ [(k, v)] := by
  induction m with
  | nil => rfl
  | cons p rest ih =>
    obtain ⟨k', v'⟩ := p
    simp only [List.map_cons, List.mem_cons] at h
    push_neg at h
    obtain ⟨h1, h2⟩ := h
    simp only [dictInsert]
    rw [if_neg fun he => h1 he.symm, ih h2]
    simp

theorem tracker_run_fresh (n : Nat) :
    ∀ (obs : List (String × List String)) (st : TrackerState),
      (obs.map Prod.fst).Nodup →
      (∀ k, k ∈ obs.map Prod.fst → k ∉ st.results.map Prod.fst) →
      st.results.length + obs.length = expected_chunks n →
      st.results.length < expected_chunks n →
      (obs.foldl (trackerStep n) st).finalizeCount = st.finalizeCount + 1 := by
  intro obs
  induction obs with
  | nil =>
    intro st _ _ hsum hlt
    simp only [List.length_nil] at hsum
    omega
  | cons o rest ih =>
    intro st hnd hfresh hsum hlt
    have hfo : o.1 ∉ st.results.map Prod.fst := hfresh o.1 (by simp)
    have hins : dictInsert st.results o.1 o.2 = st.results ++ [(o.1, o.2)] :=
      dictInsert_fresh _ _ _ hfo
    simp only [List.map_cons, List.nodup_cons] at hnd
    simp only [List.length_cons] at hsum
    simp only [List.foldl_cons]
    by_cases hfin : expected_chunks n ≤ st.results.length + 1
    · have hlen0 : rest.length = 0 := by omega
      have hrest := List.length_eq_zero.mp hlen0
      subst hrest
      simp only [List.foldl_nil, trackerStep, hins]
      rw [if_pos (by simp only [List.length_append, List.length_cons, List.length_nil]; omega)]
    · have hr' : (trackerStep n st o).results = st.results ++ [(o.1, o.2)] := by
        simp only [trackerStep, hins]
        rw [if_neg (by simp only [List.length_append, List.length_cons, List.length_nil]; omega)]
      have hf' : (trackerStep n st o).finalizeCount = st.finalizeCount := by
        simp only [trackerStep, hins]
        rw [if_neg (by simp only [List.length_append, List.length_cons, List.length_nil]; omega)]
      have hfresh' : ∀ k, k ∈ rest.map Prod.fst →
          k ∉ (trackerStep n st o).results.map Prod.fst := by
        intro k hk
        rw [hr']
        simp only [List.map_append, List.map_cons, List.map_nil, List.mem_append,
          List.mem_cons, List.not_mem_nil]
        push_neg
        exact ⟨hfresh k (by simp [hk]), fun he => absurd (he ▸ hk) hnd.1, fun he => he.elim⟩
      have hsum' : (trackerStep n st o).results.length + rest.length = expected_chunks n := by
        rw [hr']
        simp only [List.length_append, List.length_cons, List.length_nil]
        omega
      have hlt' : (trackerStep n st o).results.length < expected_chunks n := by
        rw [hr']
        simp only [List.length_append, List.length_cons, List.length_nil]
        omega
      rw [ih (trackerStep n st o) hnd.2 hfresh' hsum' hlt', hf']

theorem filterMap_eq_filterMap_filter {α β : Type} (f : α → Option β) (l : List α) :
    l.filterMap f = (l.filter fun x => (f x).isSome).filterMap f := by
  induction l with
  | nil => rfl
  | cons x xs ih =>
    cases hfx : f x with
    | none => simp [List.filterMap_cons, List.filter_cons, hfx, ih]
    | some b => simp [List.filterMap_cons, List.filter_cons, hfx, ih]

theorem length_filterMap_of_isSome {α β : Type} (f : α → Option β) (l : List α)
    (h : ∀ x ∈ l, (f x).isSome) : (l.filterMap f).length = l.length := by
  induction l with
  | nil => rfl
  | cons x xs ih =>
    cases hfx : f x with
    | none => exact absurd (h x (by simp)) (by simp [hfx])
    | some b => simp [List.filterMap_cons, hfx, ih fun y hy => h y (by simp [hy])]

theorem capGuard_ne_nil {cap c : List Char} (h : capGuard cap = some c) : c ≠ [] := by
  unfold capGuard at h
  split at h
  · cases h
  · cases h
    assumption

theorem capIfClosed_ne_nil {l c : List Char} (h : capIfClosed l = some c) : c ≠ [] := by
  unfold capIfClosed at h
  split at h
  · cases h
  · exact capGuard_ne_nil h

theorem p1At_ne_nil (l cap : List Char) (h : p1At l = some cap) : cap ≠ [] := by
  unfold p1At at h
  cases hs : stripPrefixCI ("save_id".data) l with
  | none => simp [hs] at h
  | some r1 =>
    simp only [hs] at h
    split at h
    · exact capGuard_ne_nil h
    · cases h

theorem p2At_ne_nil (l cap : List Char) (h : p2At l = some cap) : cap ≠ [] := by
  unfold p2At at h
  cases hs : stripPrefixCI ("save_id=".data) l with
  | none => simp [hs] at h
  | some r =>
    simp only [hs] at h
    exact capGuard_ne_nil h

theorem p3At_ne_nil (l cap : List Char) (h : p3At l = some cap) : cap ≠ [] := by
  unfold p3At at h
  split at h
  · cases hs : stripPrefixCI ("save_id".data) l.tail with
    | none => simp [hs] at h
    | some r2 =>
      simp only [hs] at h
      split at h
      · split at h
        · exact capIfClosed_ne_nil h
        · cases h
      · cases h
  · cases h

theorem p4At_ne_nil (l cap : List Char) (h : p4At l = some cap) : cap ≠ [] := by
  unfold p4At at h
  cases hs : stripPrefixCI ("success".data) l with
  | none => simp [hs] at h
  | some r =>
    simp only [hs] at h
    split at h
    · split at h
      · cases h
        simp
      · cases h
    · exact capGuard_ne_nil h

theorem searchOpt_ne_nil (m : List Char → Option (List Char))
    (hm : ∀ l c, m l = some c → c ≠ []) :
    ∀ (l cap : List Char), searchOpt m l = some cap → cap ≠ [] := by
  intro l
  induction l with
  | nil =>
    intro cap h
    simp [searchOpt] at h
  | cons x rest ih =>
    intro cap h
    simp only [searchOpt] at h
    cases hm1 : m (x :: rest) with
    | some c =>
      simp only [hm1] at h
      cases h
      exact hm _ _ hm1
    | none =>
      simp only [hm1] at h
      exact ih cap h

theorem string_append_data (s t : String) : (s ++ t).data = s.data ++ t.data := rfl

theorem upload_fallback_ne_empty (a b : String) : ("upload_" ++ a ++ "_" ++ b) ≠ "" := by
  intro h
  have h2 : ("upload_" ++ a ++ "_" ++ b).data = "".data := congrArg String.data h
  rw [string_append_data, string_append_data, string_append_data] at h2
  rw [List.append_eq_nil, List.append_eq_nil, List.append_eq_nil] at h2
  exact absurd h2.1.1.1 (by decide)

theorem ite_nil_default_ne_nil (l : List ProtocolTag) :
    (if l = [] then [ProtocolTag.HTTP] else l) ≠ [] := by
  split
  · simp
  · assumption

theorem protocolTag_mem_all (p : ProtocolTag) :
    ([ProtocolTag.HTTP, ProtocolTag.HTTPS, ProtocolTag.SOCKS4,
      ProtocolTag.SOCKS5].contains p) = true := by
  cases p <;> rfl

/-! ## Claim theorems -/

/-- C5: the Acknowledgement Parser is total and never returns the empty
string: for every response body text (including "") and every batch index
it returns a non-empty identifier, and when none of the four ordered
patterns matches anywhere in the text it returns the synthetic identifier
`upload_<currentUnixTimeSeconds>_<batchIndex>`. -/
theorem extract_save_id_total (text : String) (now idx : Nat) :
    _extract_save_id text now idx ≠ "" ∧
    (searchOpt p1At text.data = none → searchOpt p2At text.data = none →
      searchOpt p3At text.data = none → searchOpt p4At text.data = none →
      _extract_save_id text now idx = "upload_" ++ toString now ++ "_" ++ toString idx) := by
  constructor
  · cases h1 : searchOpt p1At text.data with
    | some cap =>
      simp only [_extract_save_id, h1]
      intro hc
      exact searchOpt_ne_nil p1At p1At_ne_nil text.data cap h1 (congrArg String.data hc)
    | none =>
      cases h2 : searchOpt p2At text.data with
      | some cap =>
        simp only [_extract_save_id, h1, h2]
        intro hc
        exact searchOpt_ne_nil p2At p2At_ne_nil text.data cap h2 (congrArg String.data hc)
      | none =>
        cases h3 : searchOpt p3At text.data with
        | some cap =>
          simp only [_extract_save_id, h1, h2, h3]
          intro hc
          exact searchOpt_ne_nil p3At p3At_ne_nil text.data cap h3 (congrArg String.data hc)
        | none =>
          cases h4 : searchOpt p4At text.data with
          | some cap =>
            simp only [_extract_save_id, h1, h2, h3, h4]
            intro hc
            exact searchOpt_ne_nil p4At p4At_ne_nil text.data cap h4 (congrArg String.data hc)
          | none =>
            simp only [_extract_save_id, h1, h2, h3, h4]
            exact upload_fallback_ne_empty _ _
  · intro h1 h2 h3 h4
    simp only [_extract_save_id, h1, h2, h3, h4]

/-- Witness: C5 instantiated at the empty response text, where no pattern
matches and the synthetic identifier is produced. -/
theorem extract_save_id_total_witness :
    _extract_save_id "" 0 0 ≠ "" ∧ _extract_save_id "" 0 0 = "upload_0_0" := by
  refine ⟨(extract_save_id_total "" 0 0).1, ?_⟩
  exact ((extract_save_id_total "" 0 0).2 rfl rfl rfl rfl).trans (by decide)

/-- C6: the Protocol Classifier implements exactly the spec's policy: on the
case-folded cell text, the HTTP-family rule (HTTPS ⇒ {HTTP, HTTPS}, else
HTTP ⇒ {HTTP}) and the SOCKS-family rule (SOCKS5, else SOCKS4, else generic
SOCKS ⇒ {SOCKS4, SOCKS5}) are evaluated independently, their results are
unioned, and an empty union defaults to {HTTP}. -/
theorem extract_protocols_matches_spec_policy (cell : String) :
    _extract_protocols (some cell) = classifierPolicySpec cell := by
  unfold _extract_protocols classifierPolicySpec httpFamilyOf socksFamilyOf
  cases h1 : containsStr (pyUpper cell) "HTTPS" <;>
  cases h2 : containsStr (pyUpper cell) "HTTP" <;>
  cases h3 : containsStr (pyUpper cell) "SOCKS5" <;>
  cases h4 : containsStr (pyUpper cell) "SOCKS4" <;>
  cases h5 : containsStr (pyUpper cell) "SOCKS" <;>
  simp [h1, h2, h3, h4, h5]

/-- Witness:  C6 instantiated at a concrete cell text. -/
theorem extract_protocols_matches_spec_policy_witness :
    _extract_protocols (some "<td>SOCKS4</td>") = classifierPolicySpec "<td>SOCKS4</td>" :=
  extract_protocols_matches_spec_policy "<td>SOCKS4</td>"

/-- C7: the Protocol Classifier is total: for every input (including the
empty string) the result is a non-empty list of tags drawn from
{HTTP, HTTPS, SOCKS4, SOCKS5}, and the absent-cell case yields exactly
[HTTP]. -/
theorem extract_protocols_total :
    (∀ cell : Option String,
        _extract_protocols cell ≠ [] ∧
        (_extract_protocols cell).all
          (fun p => [ProtocolTag.HTTP, ProtocolTag.HTTPS, ProtocolTag.SOCKS4,
            ProtocolTag.SOCKS5].contains p) = true) ∧
    _extract_protocols none = [ProtocolTag.HTTP] := by
  refine ⟨fun cell => ⟨?_, ?_⟩, rfl⟩
  · cases cell with
    | none => simp [_extract_protocols]
    | some raw => exact ite_nil_default_ne_nil _
  · exact List.all_eq_true.mpr fun p _ => protocolTag_mem_all p

/-- C4: the Batcher is a pure function: for every capacity C ≥ 1 and every
input sequence (including the empty one), every produced batch has size ≤ C,
concatenating all batches in order reproduces the input exactly, and the
empty input yields the empty batch sequence. -/
theorem batcher_roundtrip {α : Type} (c : Nat) (hc : 1 ≤ c) (l : List α) :
    (chunksOf c l).flatten = l ∧
    (chunksOf c l).all (fun b => decide (b.length ≤ c)) = true ∧
    chunksOf c ([] : List α) = [] := by
  refine ⟨chunksOfFuel_join c l.length l le_rfl, ?_, rfl⟩
  exact List.all_eq_true.mpr fun b hb =>
    decide_eq_true (chunksOfFuel_sizes c hc l.length l b hb)

/-- Witness: C4 instantiated at capacity 2 and the concrete input [1,2,3]. -/
theorem batcher_roundtrip_witness :
    1 ≤ 2 ∧
    ((chunksOf 2 [1, 2, 3]).flatten = [1, 2, 3] ∧
      (chunksOf 2 [1, 2, 3]).all (fun b => decide (b.length ≤ 2)) = true ∧
      chunksOf 2 ([] : List Nat) = []) :=
  ⟨by decide, batcher_roundtrip 2 (by decide) [1, 2, 3]⟩

/-- C1 counterexample: finalization is NOT idempotent.  For a run with 1
record (one expected batch), after the single acknowledgement has triggered
finalization, a duplicate observation of the same acknowledgement arriving
late makes `len(self.results) >= expected_chunks` hold again and
`_finalize_spider` runs a second time. -/
theorem tracker_retrigger_counterexample :
    expected_chunks 1 = 1 ∧
    (runTracker 1 [("a", ["1.1.1.1:80"]), ("a", ["1.1.1.1:80"])]).finalizeCount = 2 := by
  decide

/-- C1 amended: in a run with `n ≥ 1` records in which exactly
`ceil(n/50)` acknowledgements with pairwise-distinct identifiers are
observed (and none after), the Completion Tracker triggers finalization
exactly once — at the moment the number of distinct observed
acknowledgements reaches `ceil(n/50)`.  (Without the "none after" proviso
the property fails: there is no idempotence guard, and any observation
processed after finalization re-triggers it, see the counterexample.) -/
theorem tracker_finalizes_once (n : Nat) (obs : List (String × List String))
    (hn : 1 ≤ n) (hnd : (obs.map Prod.fst).Nodup)
    (hlen : obs.length = expected_chunks n) :
    (runTracker n obs).finalizeCount = 1 := by
  have hexp : 1 ≤ expected_chunks n := by
    unfold expected_chunks
    omega
  have h := tracker_run_fresh n obs ⟨[], 0, none⟩ hnd (by intro k _; simp)
    (by simpa using hlen) (by simpa using hexp)
  simpa [runTracker] using h

/-- Witness: C1 (amended) instantiated at a 1-record run with its single
acknowledgement. -/
theorem tracker_finalizes_once_witness :
    (1 ≤ 1 ∧ ([("a", ["1.1.1.1:80"])].map Prod.fst).Nodup ∧
      [("a", ["1.1.1.1:80"])].length = expected_chunks 1) ∧
    (runTracker 1 [("a", ["1.1.1.1:80"])]).finalizeCount = 1 :=
  ⟨⟨by decide, by decide, by decide⟩,
    tracker_finalizes_once 1 [("a", ["1.1.1.1:80"])] (by decide) (by decide) (by decide)⟩

/-- C3 counterexample: when a second batch yields the same extracted
AcknowledgementId, the insertion silently destroys the earlier batch's
mapping: after the second write the earlier address list is gone from the
map entirely. -/
theorem result_map_overwrite_counterexample :
    dictInsert [("id1", ["1.1.1.1:80"])] "id1" ["2.2.2.2:81"] = [("id1", ["2.2.2.2:81"])] ∧
    ((dictInsert [("id1", ["1.1.1.1:80"])] "id1" ["2.2.2.2:81"]).map
      Prod.snd).contains ["1.1.1.1:80"] = false := by
  decide

/-- C3 amended: ResultMap insertion is last-writer-wins: after inserting
`(k, v)` the map associates `k` with the later batch's value `v`; the
earlier batch's value is overwritten and no longer recoverable under that
key (matching the open question recorded in spec §9). -/
theorem dictInsert_last_writer_wins (m : List (String × List String)) (k : String)
    (v : List String) : dictFind (dictInsert m k v) k = some v := by
  induction m with
  | nil => simp [dictInsert, dictFind]
  | cons p rest ih =>
    obtain ⟨k', v'⟩ := p
    by_cases h : k' = k
    · simp [dictInsert, dictFind, h]
    · simp [dictInsert, dictFind, h, ih]

/-- Witness: C7 instantiated at the empty cell text and at the absent cell. -/
theorem extract_protocols_total_witness :
    (_extract_protocols (some "") ≠ [] ∧
      (_extract_protocols (some "")).all
        (fun p => [ProtocolTag.HTTP, ProtocolTag.HTTPS, ProtocolTag.SOCKS4,
          ProtocolTag.SOCKS5].contains p) = true) ∧
    _extract_protocols none = [ProtocolTag.HTTP] :=
  ⟨extract_protocols_total.1 (some ""), extract_protocols_total.2⟩

/-- C2 counterexample: the Record Extractor does NOT reject out-of-range
ports.  A row whose port cell text is "70000" (an integer outside
[1, 65535]) still yields a ProxyRecord, carrying port 70000. -/
theorem port_range_unchecked_counterexample :
    pyInt (pyStrip "70000") = some 70000 ∧ (65535 : Int) < 70000 ∧
    _parse_proxy_row rowPort70000 =
      some { ip := "1.2.3.4", port := 70000, protocols := [ProtocolTag.HTTP] } := by
  decide

/-- C2 amended: the Record Extractor returns `None` when the port text
fails to parse as an integer (Python `int` on the stripped text), but
performs no range check: whenever a record is produced, its port is
exactly whatever integer the port text parsed to — including values
outside [1, 65535]. -/
theorem port_parsed_but_not_range_checked (c0 c1 : Cell) (rest : List Cell) :
    (∀ pt, c1.text? = some pt → pyInt (pyStrip pt) = none →
      _parse_proxy_row (c0 :: c1 :: rest) = none) ∧
    (∀ r, _parse_proxy_row (c0 :: c1 :: rest) = some r →
      ∃ pt, c1.text? = some pt ∧ pt ≠ "" ∧ pyInt (pyStrip pt) = some r.port) := by
  constructor
  · intro pt hpt hnone
    simp only [_parse_proxy_row, hpt, hnone]
    cases c0.text? <;> simp
  · intro r hr
    simp only [_parse_proxy_row] at hr
    cases h0 : c0.text? with
    | none => simp [h0] at hr
    | some ip0 =>
      simp only [h0] at hr
      by_cases hip : ip0 = ""
      · simp [hip] at hr
      · rw [if_neg hip] at hr
        cases h1 : c1.text? with
        | none => simp [h1] at hr
        | some pt =>
          simp only [h1] at hr
          by_cases hptn : pt = ""
          · simp [hptn] at hr
          · rw [if_neg hptn] at hr
            cases h2 : pyInt (pyStrip pt) with
            | none => simp [h2] at hr
            | some port =>
              simp only [h2] at hr
              refine ⟨pt, rfl, hptn, ?_⟩
              cases hr
              exact h2

/-- Witness: C2 (amended) instantiated at a concrete row with a
non-numeric port text. -/
theorem port_parsed_but_not_range_checked_witness :
    pyInt (pyStrip "abc") = none ∧
    _parse_proxy_row [{ text? := some "1.2.3.4", raw := "" },
      { text? := some "abc", raw := "" }] = none :=
  ⟨by decide,
    (port_parsed_but_not_range_checked { text? := some "1.2.3.4", raw := "" }
      { text? := some "abc", raw := "" } []).1 "abc" rfl (by decide)⟩

/-- C8: if the extracted record sequence is empty, the Upload Coordinator
reports the explicit "nothing to upload" condition and performs no
requests at all — no upload-page request and no batch submissions (the
spec's ABORTED outcome). -/
theorem empty_extraction_aborts (rows : List (List Cell))
    (h : parse_proxies rows = []) :
    _upload_proxies (parse_proxies rows) =
      { nothingToUpload := true, uploadPageRequests := 0, batchSubmissions := [] } := by
  rw [h]
  rfl

/-- Witness: C8 instantiated at a source page with no rows. -/
theorem empty_extraction_aborts_witness :
    parse_proxies [] = [] ∧
    _upload_proxies (parse_proxies []) =
      { nothingToUpload := true, uploadPageRequests := 0, batchSubmissions := [] } :=
  ⟨rfl, empty_extraction_aborts [] rfl⟩

/-- C9: only the first 150 rows are ever considered: appending any rows
after a 150-row prefix leaves the extracted record sequence unchanged, so
a row at position 151 or later never produces a record, however valid. -/
theorem rows_beyond_150_ignored (pre suf : List (List Cell))
    (h : 150 ≤ pre.length) :
    parse_proxies (pre ++ suf) = parse_proxies pre := by
  unfold parse_proxies
  rw [List.take_append_eq_append_take]
  have h0 : 150 - pre.length = 0 := by omega
  rw [h0]
  simp

/-- Witness: C9 instantiated at 150 unparsable rows followed by a valid
row, which is dropped. -/
theorem rows_beyond_150_ignored_witness :
    150 ≤ (List.replicate 150 ([] : List Cell)).length ∧
    parse_proxies (List.replicate 150 ([] : List Cell) ++
        [[{ text? := some "8.8.8.8", raw := "" }, { text? := some "53", raw := "" }]]) =
      parse_proxies (List.replicate 150 ([] : List Cell)) :=
  ⟨by simp, rows_beyond_150_ignored _ _ (by simp)⟩

/-- C10: extraction is an order-preserving filter: the accepted rows (the
considered rows on which the Record Extractor succeeds) form a sublist of
the input — hence keep their relative input order — and the produced
record sequence is exactly their records, one per accepted row, with no
reordering or duplication. -/
theorem extraction_order_preserving (rows : List (List Cell)) :
    ((rows.take 150).filter fun r => (_parse_proxy_row r).isSome).Sublist rows ∧
    parse_proxies rows =
      ((rows.take 150).filter fun r => (_parse_proxy_row r).isSome).filterMap
        _parse_proxy_row ∧
    (parse_proxies rows).length =
      ((rows.take 150).filter fun r => (_parse_proxy_row r).isSome).length := by
  have h2 : parse_proxies rows =
      ((rows.take 150).filter fun r => (_parse_proxy_row r).isSome).filterMap
        _parse_proxy_row :=
    filterMap_eq_filterMap_filter _ _
  refine ⟨(List.filter_sublist _).trans (List.take_sublist _ _), h2, ?_⟩
  rw [h2]
  exact length_filterMap_of_isSome _ _ fun x hx => (List.mem_filter.mp hx).2

/-- Witness: C10 instantiated at a concrete input with one accepted and
one rejected row. -/
theorem extraction_order_preserving_witness :
    (([[{ text? := some "8.8.4.4", raw := "" }, { text? := some "53", raw := "" }],
        [{ text? := some "no port", raw := "" }]].take 150).filter
      (fun r => (_parse_proxy_row r).isSome)).Sublist
        [[{ text? := some "8.8.4.4", raw := "" }, { text? := some "53", raw := "" }],
        [{ text? := some "no port", raw := "" }]] ∧
    parse_proxies
        [[{ text? := some "8.8.4.4", raw := "" }, { text? := some "53", raw := "" }],
        [{ text? := some "no port", raw := "" }]] =
      (([[{ text? := some "8.8.4.4", raw := "" }, { text? := some "53", raw := "" }],
        [{ text? := some "no port", raw := "" }]].take 150).filter
        (fun r => (_parse_proxy_row r).isSome)).filterMap _parse_proxy_row ∧
    (parse_proxies
        [[{ text? := some "8.8.4.4", raw := "" }, { text? := some "53", raw := "" }],
        [{ text? := some "no port", raw := "" }]]).length =
      (([[{ text? := some "8.8.4.4", raw := "" }, { text? := some "53", raw := "" }],
        [{ text? := some "no port", raw := "" }]].take 150).filter
        (fun r => (_parse_proxy_row r).isSome)).length :=
  extraction_order_preserving
    [[{ text? := some "8.8.4.4", raw := "" }, { text? := some "53", raw := "" }],
    [{ text? := some "no port", raw := "" }]]

end SpyderParse
